import Mathlib

/-!
Shallow embedding of the crawl-orchestration core of `crabler-fork`
(src/src/lib.rs): work items, work results, the visited set, the worker
loop, the orchestrator event loop, in-flight accounting and shutdown.
External collaborators (HTTP fetch, file write) are modelled as oracle
functions supplied through a `FetchEnv`. The shared `HashSet<String>` of
visited links is modelled as a `Finset String`; the `AtomicUsize`
in-flight counter as a `Nat` (the invariant proved below shows every
`fetch_sub` happens at a strictly positive value, so no wrap occurs).
-/

namespace Crabler

/-- Error type of the crate (module `errors`, not under src/).
Modelled from the spec: error taxonomy of §7 — `QueueClosed`,
`FetchFailed`, `IoFailed`, `CallbackFailed`. -/
inductive CrablerError where
  | queueClosed
  | fetchFailed (msg : String)
  | ioFailed (msg : String)
  | callbackFailed (msg : String)
  deriving DecidableEq, Repr

/-- Mirrors `enum WorkInput` (lib.rs lines 92-97):
`Navigate(String)`, `Download { url, destination }`, `Exit`. -/
inductive WorkInput where
  | navigate (url : String)
  | download (url : String) (destination : String)
  | exit
  deriving DecidableEq, Repr

/-- Mirrors `enum WorkOutput` (lib.rs lines 508-522):
`Markup { url, text, status }`, `Download { url, destination }`,
`Noop(String)`, `Error(String, CrablerError)`, `Exit`. -/
inductive WorkOutput where
  | markup (url : String) (text : String) (status : Nat)
  | download (url : String) (destination : String)
  | noop (url : String)
  | error (url : String) (e : CrablerError)
  | exit
  deriving DecidableEq, Repr

/-- Oracles for the external collaborators used by a worker:
`fetchPage` stands for `surf::get(url)` followed by `body_string()`
(lib.rs 484, 526), returning the status and the body text or the first
error raised; `fetchBytes` stands for `surf::get(url)?.body_bytes()`
(lib.rs 497); `writeFile` stands for `File::create` plus `write_all`
(lib.rs 498-499). -/
structure FetchEnv where
  fetchPage : String → Except CrablerError (Nat × String)
  fetchBytes : String → Except CrablerError (List Nat)
  writeFile : String → List Nat → Except CrablerError Unit

/-- Mirrors `workoutput_from_response` (lib.rs 524-533): wraps the status
and body text of a fetched response into `WorkOutput::Markup`. (The
zero-length body check in the source only logs and changes nothing.) -/
def workoutput_from_response (status : Nat) (text : String) (url : String) : WorkOutput :=
  WorkOutput.markup url text status

/-- Mirrors `Worker::navigate` (lib.rs 479-490): membership test on the
visited set; when absent, insert the url, then fetch and build a
`Markup` output (or propagate the fetch error); when present, `Noop`.
Returns the produced `Result<WorkOutput>` together with the visited set
after the call. -/
def Worker.navigate (env : FetchEnv) (visited : Finset String) (url : String) :
    Except CrablerError WorkOutput × Finset String :=
  if url ∈ visited then
    (Except.ok (WorkOutput.noop url), visited)
  else
    match env.fetchPage url with
    | Except.error e => (Except.error e, insert url visited)
    | Except.ok (status, text) =>
        (Except.ok (workoutput_from_response status text url), insert url visited)

/-- Mirrors `Worker::download` (lib.rs 492-505): membership test on the
visited set; when absent, fetch the bytes, write them to the destination
and produce `Download` (propagating any fetch or write error); when
present, `Noop`. The source inserts nothing into the visited set in
either branch. -/
def Worker.download (env : FetchEnv) (visited : Finset String) (url destination : String) :
    Except CrablerError WorkOutput × Finset String :=
  if url ∈ visited then
    (Except.ok (WorkOutput.noop url), visited)
  else
    match env.fetchBytes url with
    | Except.error e => (Except.error e, visited)
    | Except.ok bytes =>
        match env.writeFile destination bytes with
        | Except.error e => (Except.error e, visited)
        | Except.ok _ => (Except.ok (WorkOutput.download url destination), visited)

/-- Mirrors `Worker::process_message` (lib.rs 455-477): dispatch on the
work input; for `Navigate` and `Download` an `Err(e)` from the handler is
converted into `Ok(WorkOutput::Error(url, e))`; `Exit` yields
`Ok(WorkOutput::Exit)`. -/
def Worker.process_message (env : FetchEnv) (visited : Finset String) (input : WorkInput) :
    Except CrablerError WorkOutput × Finset String :=
  match input with
  | WorkInput.navigate url =>
      let w := Worker.navigate env visited url
      match w.1 with
      | Except.error e => (Except.ok (WorkOutput.error url e), w.2)
      | Except.ok out => (Except.ok out, w.2)
  | WorkInput.download url destination =>
      let w := Worker.download env visited url destination
      match w.1 with
      | Except.error e => (Except.ok (WorkOutput.error url e), w.2)
      | Except.ok out => (Except.ok out, w.2)
  | WorkInput.exit => (Except.ok WorkOutput.exit, visited)

/-- Outcome of a run of the worker loop `Worker::start` over a finite
prefix of receive events: `ok` is the normal `return Ok(())` taken on an
`Exit` input, `err` an early `Err` exit (a failing `?`), and `pending`
means the prefix is exhausted and the loop is still awaiting the next
receive. -/
inductive WorkerOutcome where
  | ok
  | err (e : CrablerError)
  | pending
  deriving DecidableEq, Repr

/-- Mirrors `Worker::start` (lib.rs 436-453) run over a finite list of
receive events on the work-input channel: `none` is a receive that failed
with `RecvError` (the loop `continue`s), `some input` a dequeued
`WorkInput`. `txClosed` says whether the work-output channel is closed,
in which case the `send` fails with a closed-queue error. Returns the
loop outcome, the list of outputs sent, and the final visited set. -/
def Worker.start (env : FetchEnv) (txClosed : Bool) :
    Finset String → List (Option WorkInput) →
    WorkerOutcome × List WorkOutput × Finset String
  | visited, [] => (WorkerOutcome.pending, [], visited)
  | visited, none :: rest => Worker.start env txClosed visited rest
  | visited, some input :: rest =>
      let p := Worker.process_message env visited input
      match p.1 with
      | Except.error e => (WorkerOutcome.err e, [], p.2)
      | Except.ok out =>
          if out = WorkOutput.exit then (WorkerOutcome.ok, [], p.2)
          else if txClosed then (WorkerOutcome.err CrablerError.queueClosed, [], p.2)
          else
            let r := Worker.start env txClosed p.2 rest
            (r.1, out :: r.2.1, r.2.2)

/-- Mirrors the supervision loop spawned by `start_worker_impl`
(lib.rs 286-310): run `Worker::start`; on `Ok(())` break (the slot ends
permanently), on `Err(e)` log a warning and start the loop again with
the same worker — same oracles, same channel handles, and the shared
visited set as the failed run left it. The argument list gives the
receive events seen by each successive run; the result is the number of
warning-and-restart iterations, whether the slot ended by a clean break,
and the final visited set. -/
def superviseRuns (env : FetchEnv) (txClosed : Bool) :
    Finset String → List (List (Option WorkInput)) → Nat × Bool × Finset String
  | visited, [] => (0, false, visited)
  | visited, evs :: rest =>
      let r := Worker.start env txClosed visited evs
      match r.1 with
      | WorkerOutcome.ok => (0, true, r.2.2)
      | WorkerOutcome.err _ =>
          let s := superviseRuns env txClosed r.2.2 rest
          (s.1 + 1, s.2)
      | WorkerOutcome.pending => (0, false, r.2.2)

/-- Data fields of `Response` (lib.rs 99-105) as built by the event loop
for a processed work output: the url, the status code, and the optional
download destination. -/
structure Response where
  url : String
  status : Nat
  download_destination : Option String
  deriving DecidableEq, Repr

/-- Mirrors the `match output` at the head of `event_loop_impl`
(lib.rs 210-261), which computes `response_url`, `response_status` and
`response_destination` from the received `WorkOutput`: `Markup` keeps the
fetch status, `Download` gets status 200 and the destination, `Noop`
status 304, `Error` status 500, `Exit` an empty url and status 500. -/
def event_loop_response : WorkOutput → Response
  | WorkOutput.markup url _text status => Response.mk url status none
  | WorkOutput.download url destination => Response.mk url 200 (some destination)
  | WorkOutput.noop url => Response.mk url 304 none
  | WorkOutput.error url _e => Response.mk url 500 none
  | WorkOutput.exit => Response.mk "" 500 none

/-- Url carried by a work output (`Exit` carries none; the event loop
substitutes the empty string for it, lib.rs 258). -/
def WorkOutput.urlOf : WorkOutput → String
  | WorkOutput.markup url _ _ => url
  | WorkOutput.download url _ => url
  | WorkOutput.noop url => url
  | WorkOutput.error url _ => url
  | WorkOutput.exit => ""

/-- Counter-relevant behaviour of one event-loop iteration's callback
dispatches (`dispatch_on_html` for every selector and matched element,
then `dispatch_on_response`, lib.rs 224-270): `enqueues` is the number of
`Response::navigate` / `Response::download_file` calls the callbacks
perform — each does `fetch_add(1)` then sends the work item — and
`fault` is the first error a dispatch returns, which `?` propagates out
of the loop before the decrement is reached. -/
structure CallbackEffect where
  enqueues : Nat
  fault : Option CrablerError
  deriving DecidableEq, Repr

/-- Result of running the event loop over a finite prefix of received
work outputs: `ok` is the normal `return Ok(())`, `fault e` an `Err`
propagated from a callback, `waiting c` means the prefix is exhausted
and the loop is awaiting the next result with counter value `c`. -/
inductive LoopResult where
  | ok
  | fault (e : CrablerError)
  | waiting (counter : Nat)
  deriving DecidableEq, Repr

/-- One iteration of `event_loop_impl` (lib.rs 204-282) after a result is
received, restricted to the in-flight counter: the callbacks run first
(each enqueue having done its `fetch_add(1)` already), a callback fault
exits the loop through `?`, otherwise `fetch_sub(1)` runs and the loop
returns `Ok(())` when the counter has reached 0 (lib.rs 273-281). -/
def eventLoopStep (counter : Nat) (eff : CallbackEffect) :
    Except CrablerError Nat :=
  match eff.fault with
  | some e => Except.error e
  | none => Except.ok (counter + eff.enqueues - 1)

/-- Mirrors the `loop` of `event_loop_impl` over a finite list of
per-result callback effects, starting from the given counter value: the
loop returns `Ok(())` when the load after the `fetch_sub` is 0, and
otherwise goes on to the next result. -/
def eventLoop (counter : Nat) : List CallbackEffect → LoopResult
  | [] => LoopResult.waiting counter
  | eff :: rest =>
      match eventLoopStep counter eff with
      | Except.error e => LoopResult.fault e
      | Except.ok c => if c = 0 then LoopResult.ok else eventLoop c rest

/-- Some fully processed result in the list leaves the in-flight counter
at exactly 0 immediately after its decrement, the loop having continued
(nonzero counter, no fault) past every earlier result. -/
inductive ReachesZero : Nat → List CallbackEffect → Prop where
  | here {c : Nat} {eff : CallbackEffect} {rest : List CallbackEffect} :
      eff.fault = none → c + eff.enqueues - 1 = 0 → ReachesZero c (eff :: rest)
  | there {c : Nat} {eff : CallbackEffect} {rest : List CallbackEffect} :
      eff.fault = none → c + eff.enqueues - 1 ≠ 0 →
      ReachesZero (c + eff.enqueues - 1) rest → ReachesZero c (eff :: rest)

/-- Open/closed state of the two endpoints of one channel
(`Channels { tx, rx }`, lib.rs 146-158). -/
structure ChannelState where
  txClosed : Bool
  rxClosed : Bool
  deriving DecidableEq, Repr

/-- Mirrors `scraper_shutdown` (lib.rs 391-404): send one `Exit` work
item per tracked worker handle — each send fails with a closed-queue
error when the work-input sender is already closed — then close both
endpoints of the work-input channel and both endpoints of the
work-output channel. Returns the number of `Exit` items sent and the two
channel states. -/
def scraper_shutdown (workers : Nat) (input output : ChannelState) :
    Except CrablerError (Nat × ChannelState × ChannelState) :=
  if 0 < workers ∧ input.txClosed = true then Except.error CrablerError.queueClosed
  else Except.ok (workers, ChannelState.mk true true, ChannelState.mk true true)

/-- Result of `run` (`scraper_run_impl`): `Ok(())`, an `Err`, or still
inside the event loop awaiting a result (in which case `run` has not
returned and shutdown has not run). -/
inductive RunResult where
  | ok
  | err (e : CrablerError)
  | stillRunning
  deriving DecidableEq, Repr

/-- Mirrors `scraper_run_impl` (lib.rs 192-200): run the event loop,
keep its result `ret`, then run shutdown — whatever `ret` was — and
return `ret` (or the shutdown error if shutdown itself failed). Returns
the run result, the number of `Exit` items sent, and the two channel
states when `run` returns. -/
def scraper_run (counter : Nat) (effs : List CallbackEffect) (workers : Nat)
    (input output : ChannelState) : RunResult × Nat × ChannelState × ChannelState :=
  match eventLoop counter effs with
  | LoopResult.waiting _ => (RunResult.stillRunning, 0, input, output)
  | LoopResult.ok =>
      match scraper_shutdown workers input output with
      | Except.error e => (RunResult.err e, 0, input, output)
      | Except.ok (n, i, o) => (RunResult.ok, n, i, o)
  | LoopResult.fault e =>
      match scraper_shutdown workers input output with
      | Except.error e2 => (RunResult.err e2, 0, input, output)
      | Except.ok (n, i, o) => (RunResult.err e, n, i, o)

/-- Atomic counter-relevant events of one event-loop iteration:
`cbIncr` is a `fetch_add(1)` performed by `Response::navigate` or
`Response::download_file` inside a callback (lib.rs 128, 137), `cbSend`
the send of the corresponding work item (lib.rs 129, 138-140), and
`decr` the orchestrator's `fetch_sub(1)` (lib.rs 273). -/
inductive AtomEvent where
  | cbIncr
  | cbSend
  | decr
  deriving DecidableEq, Repr

/-- Event trace of `k` callback enqueues: each enqueue performs its
`fetch_add(1)` and then sends the work item, in that order
(`Response::navigate` / `Response::download_file`, lib.rs 126-143). -/
def enqueueTrace : Nat → List AtomEvent
  | 0 => []
  | n + 1 => AtomEvent.cbIncr :: AtomEvent.cbSend :: enqueueTrace n

/-- Counter-event trace of one event-loop iteration whose callbacks
perform `k` enqueues: the loop awaits every callback dispatch before
executing its single `fetch_sub(1)` (lib.rs 224-273), so all enqueue
events precede the final decrement. -/
def iterTrace (k : Nat) : List AtomEvent :=
  enqueueTrace k ++ [AtomEvent.decr]

/-- Global state of one crawl run, as seen by the in-flight accounting:
the counter, the contents of the two queues, the numbers of work items
currently held by a worker (dequeued, result not yet sent) and of
results currently held by the orchestrator (dequeued, decrement not yet
executed), and the two history counts the invariant speaks about:
non-`Exit` work items ever enqueued and results ever fully processed. -/
structure CrawlState where
  counter : Nat
  workQ : List WorkInput
  resultQ : List WorkOutput
  workerBusy : Nat
  orchBusy : Nat
  enqueued : Nat
  processed : Nat
  deriving DecidableEq, Repr

/-- State at `scraper_new_impl` (lib.rs 169-190): counter 0, both
channels empty, nothing in flight. -/
def crawlInit : CrawlState :=
  CrawlState.mk 0 [] [] 0 0 0 0

/-- Effect of one enqueue (`scraper_navigate` lib.rs 406-415,
`Response::navigate` lib.rs 126-132, `Response::download_file`
lib.rs 135-143): `fetch_add(1)` then send the item into the work queue. -/
def CrawlState.enqueueItem (s : CrawlState) (item : WorkInput) : CrawlState :=
  { s with counter := s.counter + 1,
           workQ := s.workQ ++ [item],
           enqueued := s.enqueued + 1 }

/-- Effect of sending one `Exit` item during shutdown (lib.rs 396-398):
the counter is not touched. -/
def CrawlState.pushStop (s : CrawlState) : CrawlState :=
  { s with workQ := s.workQ ++ [WorkInput.exit] }

/-- Effect of a worker dequeuing the item at the head of the work queue
(lib.rs 440): a non-`Exit` item moves into the worker's hands; on `Exit`
the worker returns and nothing further happens. -/
def CrawlState.takeItem (s : CrawlState) (item : WorkInput) (rest : List WorkInput) :
    CrawlState :=
  { s with workQ := rest,
           workerBusy := if item = WorkInput.exit then s.workerBusy else s.workerBusy + 1 }

/-- Effect of a worker sending the result of the item it held into the
result queue (lib.rs 450). -/
def CrawlState.emit (s : CrawlState) (out : WorkOutput) : CrawlState :=
  { s with workerBusy := s.workerBusy - 1,
           resultQ := s.resultQ ++ [out] }

/-- Effect of the orchestrator receiving the result at the head of the
result queue (lib.rs 205). -/
def CrawlState.orchPop (s : CrawlState) (rest : List WorkOutput) : CrawlState :=
  { s with resultQ := rest, orchBusy := s.orchBusy + 1 }

/-- Effect of the orchestrator finishing a result: `fetch_sub(1)` after
all callback dispatches for it returned (lib.rs 273). -/
def CrawlState.finishResult (s : CrawlState) : CrawlState :=
  { s with orchBusy := s.orchBusy - 1,
           counter := s.counter - 1,
           processed := s.processed + 1 }

/-- Interleaved small steps of a crawl run. Enqueues may happen at any
time (seeding before the loop, or callbacks while the orchestrator holds
a result); workers dequeue, process and emit; the orchestrator dequeues
a result and later decrements. Workers only ever send non-`Exit` outputs
(`Worker::start` returns instead of sending on `Exit`, lib.rs 449). -/
inductive Step : CrawlState → CrawlState → Prop where
  | enqueue (s : CrawlState) (item : WorkInput) (h : item ≠ WorkInput.exit) :
      Step s (s.enqueueItem item)
  | enqueueStop (s : CrawlState) : Step s s.pushStop
  | workerTake (s : CrawlState) (item : WorkInput) (rest : List WorkInput)
      (h : s.workQ = item :: rest) : Step s (s.takeItem item rest)
  | workerEmit (s : CrawlState) (out : WorkOutput) (hbusy : 0 < s.workerBusy)
      (hne : out ≠ WorkOutput.exit) : Step s (s.emit out)
  | orchTake (s : CrawlState) (out : WorkOutput) (rest : List WorkOutput)
      (h : s.resultQ = out :: rest) : Step s (s.orchPop rest)
  | orchFinish (s : CrawlState) (h : 0 < s.orchBusy) : Step s s.finishResult

/-- States a crawl run can be in: the initial state and everything
reachable from it by steps. -/
inductive Reachable : CrawlState → Prop where
  | init : Reachable crawlInit
  | step {s t : CrawlState} : Reachable s → Step s t → Reachable t

/-- Number of non-`Exit` items in a queue. -/
def countWork (l : List WorkInput) : Nat :=
  (l.filter fun i => i ≠ WorkInput.exit).length

/-- Inductive invariant of the in-flight accounting: the counter equals
the number of outstanding non-`Exit` items wherever they sit (work
queue, a worker's hands, the result queue, or the orchestrator's hands),
and the enqueue history equals the processed history plus the counter. -/
def InFlightInv (s : CrawlState) : Prop :=
  s.counter = countWork s.workQ + s.workerBusy + s.resultQ.length + s.orchBusy ∧
  s.enqueued = s.processed + s.counter

/-- Oracle environment whose fetches and writes all succeed, for
concrete evaluations. -/
def okEnv : FetchEnv :=
  FetchEnv.mk (fun _ => Except.ok (200, "body"))
    (fun _ => Except.ok [104, 105])
    (fun _ _ => Except.ok ())

/-- Oracle environment whose fetches and writes all fail, for concrete
evaluations of the failure paths. -/
def failEnv : FetchEnv :=
  FetchEnv.mk (fun _ => Except.error (CrablerError.fetchFailed "boom"))
    (fun _ => Except.error (CrablerError.fetchFailed "boom"))
    (fun _ _ => Except.error (CrablerError.ioFailed "boom"))

theorem countWork_append_one (l : List WorkInput) (i : WorkInput) :
    countWork (l ++ [i]) = countWork l + (if i = WorkInput.exit then 0 else 1) := by
  by_cases hi : i = WorkInput.exit <;> simp [countWork, List.filter_append, hi]

theorem countWork_cons (i : WorkInput) (l : List WorkInput) :
    countWork (i :: l) = (if i = WorkInput.exit then 0 else 1) + countWork l := by
  by_cases hi : i = WorkInput.exit <;> simp [countWork, hi] <;> omega

theorem inv_init : InFlightInv crawlInit := by
  exact ⟨rfl, rfl⟩

theorem inv_step {s t : CrawlState} (hs : InFlightInv s) (h : Step s t) :
    InFlightInv t := by
  obtain ⟨h1, h2⟩ := hs
  cases h with
  | enqueue item hne =>
      refine ⟨?_, ?_⟩ <;>
        simp [CrawlState.enqueueItem, countWork_append_one, hne] <;> omega
  | enqueueStop =>
      refine ⟨?_, ?_⟩ <;> simp [CrawlState.pushStop, countWork_append_one] <;> omega
  | workerTake item rest hq =>
      rw [hq, countWork_cons] at h1
      by_cases hi : item = WorkInput.exit <;>
        refine ⟨?_, ?_⟩ <;> simp [CrawlState.takeItem, hi] at h1 ⊢ <;> omega
  | workerEmit out hbusy hne =>
      refine ⟨?_, ?_⟩ <;> simp [CrawlState.emit] <;> omega
  | orchTake out rest hq =>
      rw [hq] at h1
      simp at h1
      refine ⟨?_, ?_⟩ <;> simp [CrawlState.orchPop] <;> omega
  | orchFinish hbusy =>
      refine ⟨?_, ?_⟩ <;> simp [CrawlState.finishResult] <;> omega

theorem reachable_inv {s : CrawlState} (h : Reachable s) : InFlightInv s := by
  induction h with
  | init => exact inv_init
  | step _ hstep ih => exact inv_step ih hstep

/-- C2: at every instant of a crawl run the in-flight counter is
non-negative and equals the number of non-`Stop` work items ever
enqueued minus the number of results fully processed by the event loop;
every enqueue bumps the counter and the enqueue history by exactly 1,
and every fully processed result bumps the processed history by exactly
1 and lowers the counter by exactly 1 (the counter being strictly
positive at that point, so the `fetch_sub` cannot wrap). -/
theorem in_flight_counter_invariant :
    (∀ s : CrawlState, Reachable s →
        s.processed ≤ s.enqueued ∧ s.counter = s.enqueued - s.processed) ∧
    (∀ (s : CrawlState) (item : WorkInput), item ≠ WorkInput.exit →
        (s.enqueueItem item).counter = s.counter + 1 ∧
        (s.enqueueItem item).enqueued = s.enqueued + 1) ∧
    (∀ s : CrawlState, Reachable s → 0 < s.orchBusy →
        0 < s.counter ∧ s.counter = s.finishResult.counter + 1 ∧
        s.finishResult.processed = s.processed + 1) := by
  refine ⟨?_, ?_, ?_⟩
  · intro s hs
    obtain ⟨h1, h2⟩ := reachable_inv hs
    omega
  · intro s item hne
    exact ⟨rfl, rfl⟩
  · intro s hs hb
    obtain ⟨h1, h2⟩ := reachable_inv hs
    have hpos : 0 < s.counter := by omega
    refine ⟨hpos, ?_, rfl⟩
    simp [CrawlState.finishResult]
    omega

/-- Witness for C2 at the state reached by seeding one url from the
initial state. -/
theorem in_flight_counter_invariant_witness :
    (crawlInit.enqueueItem (WorkInput.navigate "a")).processed ≤
      (crawlInit.enqueueItem (WorkInput.navigate "a")).enqueued ∧
    (crawlInit.enqueueItem (WorkInput.navigate "a")).counter =
      (crawlInit.enqueueItem (WorkInput.navigate "a")).enqueued -
        (crawlInit.enqueueItem (WorkInput.navigate "a")).processed :=
  in_flight_counter_invariant.1 _
    (Reachable.step Reachable.init
      (Step.enqueue crawlInit (WorkInput.navigate "a") (by decide)))

theorem iterTrace_succ (k : Nat) :
    iterTrace (k + 1) = AtomEvent.cbIncr :: AtomEvent.cbSend :: iterTrace k := by
  simp [iterTrace, enqueueTrace]

theorem incr_before_decr (k : Nat) :
    ∀ i j : Nat, (iterTrace k)[i]? = some AtomEvent.cbIncr →
      (iterTrace k)[j]? = some AtomEvent.decr → i < j := by
  induction k with
  | zero =>
      intro i j hi hj
      cases i with
      | zero => simp [iterTrace, enqueueTrace] at hi
      | succ n => simp [iterTrace, enqueueTrace] at hi
  | succ k ih =>
      intro i j hi hj
      rw [iterTrace_succ] at hi hj
      cases j with
      | zero => simp at hj
      | succ j =>
          cases j with
          | zero => simp at hj
          | succ j =>
              cases i with
              | zero => omega
              | succ i =>
                  cases i with
                  | zero => simp at hi
                  | succ i =>
                      simp only [List.getElem?_cons_succ] at hi hj
                      have := ih i j hi hj
                      omega

theorem send_after_incr (k : Nat) :
    ∀ i : Nat, (iterTrace k)[i]? = some AtomEvent.cbSend →
      0 < i ∧ (iterTrace k)[i - 1]? = some AtomEvent.cbIncr := by
  induction k with
  | zero =>
      intro i hi
      cases i with
      | zero => simp [iterTrace, enqueueTrace] at hi
      | succ n => simp [iterTrace, enqueueTrace] at hi
  | succ k ih =>
      intro i hi
      rw [iterTrace_succ] at hi ⊢
      cases i with
      | zero => simp at hi
      | succ i =>
          cases i with
          | zero => exact ⟨Nat.one_pos, by simp⟩
          | succ i =>
              simp only [List.getElem?_cons_succ] at hi
              obtain ⟨hpos, hprev⟩ := ih i hi
              refine ⟨by omega, ?_⟩
              cases i with
              | zero => omega
              | succ m =>
                  show (AtomEvent.cbIncr :: AtomEvent.cbSend ::
                      iterTrace k)[m + 2]? = some AtomEvent.cbIncr
                  simpa only [List.getElem?_cons_succ] using hprev

theorem decr_count_one (k : Nat) : (iterTrace k).count AtomEvent.decr = 1 := by
  induction k with
  | zero => rfl
  | succ k ih => rw [iterTrace_succ]; simp [List.count_cons, ih]

/-- C3: in the counter-event trace of one event-loop iteration with `k`
callback enqueues, every `fetch_add(1)` performed by a callback occurs
strictly before the orchestrator's `fetch_sub(1)` for the result that
triggered the callback; each enqueue performs its `fetch_add` in the
position immediately before its send; and the iteration performs exactly
one decrement. -/
theorem callback_increment_before_decrement :
    ∀ k : Nat,
      (∀ i j : Nat, (iterTrace k)[i]? = some AtomEvent.cbIncr →
          (iterTrace k)[j]? = some AtomEvent.decr → i < j) ∧
      (∀ i : Nat, (iterTrace k)[i]? = some AtomEvent.cbSend →
          0 < i ∧ (iterTrace k)[i - 1]? = some AtomEvent.cbIncr) ∧
      (iterTrace k).count AtomEvent.decr = 1 :=
  fun k => ⟨incr_before_decr k, send_after_incr k, decr_count_one k⟩

/-- Witness for C3 in an iteration with two callback enqueues. -/
theorem callback_increment_before_decrement_witness :
    (0 : Nat) < 4 ∧
    (0 : Nat) < 1 ∧ (iterTrace 2)[0]? = some AtomEvent.cbIncr ∧
    (iterTrace 2).count AtomEvent.decr = 1 :=
  ⟨(callback_increment_before_decrement 2).1 0 4 (by decide) (by decide),
   ((callback_increment_before_decrement 2).2.1 1 (by decide)).1,
   ((callback_increment_before_decrement 2).2.1 1 (by decide)).2,
   (callback_increment_before_decrement 2).2.2⟩

theorem eventLoop_ok_iff (c : Nat) (effs : List CallbackEffect) :
    eventLoop c effs = LoopResult.ok ↔ ReachesZero c effs := by
  induction effs generalizing c with
  | nil =>
      constructor
      · intro h; simp [eventLoop] at h
      · intro h; cases h
  | cons eff rest ih =>
      cases hf : eff.fault with
      | some e =>
          constructor
          · intro h; simp [eventLoop, eventLoopStep, hf] at h
          · intro h
            cases h with
            | here h0 _ => rw [hf] at h0; cases h0
            | there h0 _ _ => rw [hf] at h0; cases h0
      | none =>
          by_cases hz : c + eff.enqueues - 1 = 0
          · constructor
            · intro _; exact ReachesZero.here hf hz
            · intro _; simp [eventLoop, eventLoopStep, hf, hz]
          · constructor
            · intro h
              have h2 : eventLoop (c + eff.enqueues - 1) rest = LoopResult.ok := by
                simpa [eventLoop, eventLoopStep, hf, hz] using h
              exact ReachesZero.there hf hz ((ih _).mp h2)
            · intro h
              cases h with
              | here h0 hz0 => exact absurd hz0 hz
              | there _ _ htail =>
                  simpa [eventLoop, eventLoopStep, hf, hz] using (ih _).mpr htail

/-- C4: the event loop returns `Ok(())` exactly when some fully
processed result leaves the counter at 0 immediately after its
decrement; after a fully processed result with a nonzero counter the
loop goes on to the next result, and a fully processed result with a
zero counter ends the loop at once. -/
theorem event_loop_ends_iff_counter_zero :
    (∀ (c : Nat) (effs : List CallbackEffect),
        eventLoop c effs = LoopResult.ok ↔ ReachesZero c effs) ∧
    (∀ (c : Nat) (eff : CallbackEffect) (rest : List CallbackEffect),
        eff.fault = none → c + eff.enqueues - 1 ≠ 0 →
        eventLoop c (eff :: rest) = eventLoop (c + eff.enqueues - 1) rest) ∧
    (∀ (c : Nat) (eff : CallbackEffect) (rest : List CallbackEffect),
        eff.fault = none → c + eff.enqueues - 1 = 0 →
        eventLoop c (eff :: rest) = LoopResult.ok) := by
  refine ⟨eventLoop_ok_iff, ?_, ?_⟩
  · intro c eff rest hf hz
    simp [eventLoop, eventLoopStep, hf, hz]
  · intro c eff rest hf hz
    simp [eventLoop, eventLoopStep, hf, hz]

/-- Witness for C4: a crawl with one in-flight item whose callbacks
enqueue nothing ends the loop right after that item is processed. -/
theorem event_loop_ends_iff_counter_zero_witness :
    eventLoop 1 [CallbackEffect.mk 0 none] = LoopResult.ok ∧
    ReachesZero 1 [CallbackEffect.mk 0 none] :=
  ⟨event_loop_ends_iff_counter_zero.2.2 1 (CallbackEffect.mk 0 none) [] rfl (by decide),
   (event_loop_ends_iff_counter_zero.1 1 [CallbackEffect.mk 0 none]).mp
     (event_loop_ends_iff_counter_zero.2.2 1 (CallbackEffect.mk 0 none) [] rfl
       (by decide))⟩

/-- C8: whenever `run` returns — the event loop having ended normally
or with a propagated callback fault — shutdown runs, sends exactly one
`Exit` work item per tracked worker handle, and closes both sides of the
work queue and both sides of the result queue. -/
theorem run_shutdown_closes_queues :
    ∀ (c : Nat) (effs : List CallbackEffect) (workers : Nat),
      (∀ cnt : Nat, eventLoop c effs ≠ LoopResult.waiting cnt) →
      (scraper_run c effs workers (ChannelState.mk false false)
          (ChannelState.mk false false)).2.1 = workers ∧
      (scraper_run c effs workers (ChannelState.mk false false)
          (ChannelState.mk false false)).2.2.1 = ChannelState.mk true true ∧
      (scraper_run c effs workers (ChannelState.mk false false)
          (ChannelState.mk false false)).2.2.2 = ChannelState.mk true true := by
  intro c effs workers hw
  cases hev : eventLoop c effs with
  | waiting cnt => exact absurd hev (hw cnt)
  | ok => simp [scraper_run, hev, scraper_shutdown]
  | fault e => simp [scraper_run, hev, scraper_shutdown]

/-- Witness for C8: a two-worker crawl whose loop ends normally sends
two `Exit` items and closes all four channel endpoints. -/
theorem run_shutdown_closes_queues_witness :
    (scraper_run 1 [CallbackEffect.mk 0 none] 2 (ChannelState.mk false false)
        (ChannelState.mk false false)).2.1 = 2 ∧
    (scraper_run 1 [CallbackEffect.mk 0 none] 2 (ChannelState.mk false false)
        (ChannelState.mk false false)).2.2.1 = ChannelState.mk true true ∧
    (scraper_run 1 [CallbackEffect.mk 0 none] 2 (ChannelState.mk false false)
        (ChannelState.mk false false)).2.2.2 = ChannelState.mk true true :=
  run_shutdown_closes_queues 1 [CallbackEffect.mk 0 none] 2
    (by intro cnt h; simp [eventLoop, eventLoopStep] at h)

/-- C9: the visit outcome built by the event loop carries status 200 and
the destination for a `Downloaded` result, the original fetch status and
no destination for a `Page` result, status 304 and no destination for a
`Skipped` result, and status 500 and no destination for a `Failed`
result, with the outcome's url equal to the result's url in all four
cases. -/
theorem event_loop_response_fields :
    ∀ (url text destination : String) (status : Nat) (e : CrablerError),
      event_loop_response (WorkOutput.markup url text status) =
        Response.mk url status none ∧
      event_loop_response (WorkOutput.download url destination) =
        Response.mk url 200 (some destination) ∧
      event_loop_response (WorkOutput.noop url) = Response.mk url 304 none ∧
      event_loop_response (WorkOutput.error url e) = Response.mk url 500 none ∧
      (event_loop_response (WorkOutput.markup url text status)).url =
        (WorkOutput.markup url text status).urlOf ∧
      (event_loop_response (WorkOutput.download url destination)).url =
        (WorkOutput.download url destination).urlOf ∧
      (event_loop_response (WorkOutput.noop url)).url =
        (WorkOutput.noop url).urlOf ∧
      (event_loop_response (WorkOutput.error url e)).url =
        (WorkOutput.error url e).urlOf := by
  intro url text destination status e
  exact ⟨rfl, rfl, rfl, rfl, rfl, rfl, rfl, rfl⟩

/-- Counterexample for C1: processing a `Download` whose url is absent
from the visited set does not add that url — `Worker::download` performs
the membership test but, unlike `Worker::navigate`, never inserts. Here
a successful download from the empty visited set leaves it empty. -/
theorem download_does_not_insert_counterexample :
    (Worker.download okEnv ∅ "http://a" "/tmp/out").1 =
      Except.ok (WorkOutput.download "http://a" "/tmp/out") ∧
    (Worker.download okEnv ∅ "http://a" "/tmp/out").2 = ∅ ∧
    "http://a" ∉ (Worker.download okEnv ∅ "http://a" "/tmp/out").2 := by
  refine ⟨?_, ?_, ?_⟩ <;> simp [Worker.download, okEnv]

/-- C1 (amended): for every `Download` work item the worker performs a
membership test on the visited set without inserting anything: when the
url is present it emits `Skipped`, when absent it fetches the bytes and
writes them to the destination, emitting `Downloaded` on success; in
every case the visited set is left unchanged by the `Download`
processing. -/
theorem download_membership_only :
    ∀ (env : FetchEnv) (visited : Finset String) (url destination : String),
      (Worker.download env visited url destination).2 = visited ∧
      (url ∈ visited →
        (Worker.download env visited url destination).1 =
          Except.ok (WorkOutput.noop url)) ∧
      (url ∉ visited → ∀ bytes : List Nat, env.fetchBytes url = Except.ok bytes →
        env.writeFile destination bytes = Except.ok () →
        (Worker.download env visited url destination).1 =
          Except.ok (WorkOutput.download url destination)) := by
  intro env visited url destination
  refine ⟨?_, ?_, ?_⟩
  · by_cases hmem : url ∈ visited
    · simp [Worker.download, hmem]
    · cases hfb : env.fetchBytes url with
      | error e => simp [Worker.download, hmem, hfb]
      | ok bytes =>
          cases hw : env.writeFile destination bytes with
          | error e => simp [Worker.download, hmem, hfb, hw]
          | ok u => simp [Worker.download, hmem, hfb, hw]
  · intro hmem
    simp [Worker.download, hmem]
  · intro hmem bytes hfb hw
    simp [Worker.download, hmem, hfb, hw]

/-- Witness for C1 (amended): a concrete successful download from the
empty visited set. -/
theorem download_membership_only_witness :
    "a" ∉ (∅ : Finset String) ∧
    (Worker.download okEnv ∅ "a" "d").1 =
      Except.ok (WorkOutput.download "a" "d") :=
  ⟨by simp, (download_membership_only okEnv ∅ "a" "d").2.2 (by simp)
    [104, 105] rfl rfl⟩

/-- C5: starting from a visited set not yet containing the url,
submitting `Navigate(url)` twice sequentially produces exactly one
`Page` result (on fetch success) or exactly one `Failed` result (on
fetch failure) for the first submission, and the second submission — run
on the visited set the first one left — always produces `Skipped`, even
when the first fetch failed; hence never two `Page` results. -/
theorem navigate_twice_dedup :
    ∀ (env : FetchEnv) (visited : Finset String) (url : String),
      url ∉ visited →
      (∀ (status : Nat) (text : String),
          env.fetchPage url = Except.ok (status, text) →
          (Worker.process_message env visited (WorkInput.navigate url)).1 =
            Except.ok (WorkOutput.markup url text status)) ∧
      (∀ e : CrablerError, env.fetchPage url = Except.error e →
          (Worker.process_message env visited (WorkInput.navigate url)).1 =
            Except.ok (WorkOutput.error url e)) ∧
      (Worker.process_message env visited (WorkInput.navigate url)).2 =
        insert url visited ∧
      (Worker.process_message env
          (Worker.process_message env visited (WorkInput.navigate url)).2
          (WorkInput.navigate url)).1 = Except.ok (WorkOutput.noop url) := by
  intro env visited url hmem
  refine ⟨?_, ?_, ?_, ?_⟩
  · intro status text hfetch
    simp [Worker.process_message, Worker.navigate, workoutput_from_response,
      hmem, hfetch]
  · intro e hfetch
    simp [Worker.process_message, Worker.navigate, hmem, hfetch]
  · cases hfetch : env.fetchPage url with
    | error e => simp [Worker.process_message, Worker.navigate, hmem, hfetch]
    | ok p =>
        obtain ⟨status, text⟩ := p
        simp [Worker.process_message, Worker.navigate, workoutput_from_response,
          hmem, hfetch]
  · have h2 : (Worker.process_message env visited (WorkInput.navigate url)).2 =
        insert url visited := by
      cases hfetch : env.fetchPage url with
      | error e => simp [Worker.process_message, Worker.navigate, hmem, hfetch]
      | ok p =>
          obtain ⟨status, text⟩ := p
          simp [Worker.process_message, Worker.navigate,
            workoutput_from_response, hmem, hfetch]
    rw [h2]
    simp [Worker.process_message, Worker.navigate, Finset.mem_insert_self]

/-- Witness for C5 with a failing fetch: the first `Navigate` yields a
`Failed` result, the second one `Skipped`. -/
theorem navigate_twice_dedup_witness :
    (Worker.process_message failEnv ∅ (WorkInput.navigate "u")).1 =
      Except.ok (WorkOutput.error "u" (CrablerError.fetchFailed "boom")) ∧
    (Worker.process_message failEnv
        (Worker.process_message failEnv ∅ (WorkInput.navigate "u")).2
        (WorkInput.navigate "u")).1 = Except.ok (WorkOutput.noop "u") :=
  ⟨(navigate_twice_dedup failEnv ∅ "u" (by simp)).2.1
      (CrablerError.fetchFailed "boom") rfl,
   (navigate_twice_dedup failEnv ∅ "u" (by simp)).2.2.2⟩

theorem navigate_not_exit (env : FetchEnv) (visited : Finset String)
    (url : String) :
    (Worker.navigate env visited url).1 ≠ Except.ok WorkOutput.exit := by
  by_cases hmem : url ∈ visited
  · simp [Worker.navigate, hmem]
  · cases hfetch : env.fetchPage url with
    | error e => simp [Worker.navigate, hmem, hfetch]
    | ok p =>
        obtain ⟨status, text⟩ := p
        simp [Worker.navigate, workoutput_from_response, hmem, hfetch]

theorem download_not_exit (env : FetchEnv) (visited : Finset String)
    (url destination : String) :
    (Worker.download env visited url destination).1 ≠
      Except.ok WorkOutput.exit := by
  by_cases hmem : url ∈ visited
  · simp [Worker.download, hmem]
  · cases hfb : env.fetchBytes url with
    | error e => simp [Worker.download, hmem, hfb]
    | ok bytes =>
        cases hw : env.writeFile destination bytes with
        | error e => simp [Worker.download, hmem, hfb, hw]
        | ok u => simp [Worker.download, hmem, hfb, hw]

theorem process_message_exit_inv (env : FetchEnv) (visited : Finset String)
    (input : WorkInput)
    (h : (Worker.process_message env visited input).1 = Except.ok WorkOutput.exit) :
    input = WorkInput.exit := by
  cases input with
  | navigate url =>
      exfalso
      simp only [Worker.process_message] at h
      cases hn : (Worker.navigate env visited url).1 with
      | error e => rw [hn] at h; simp at h
      | ok out =>
          rw [hn] at h
          simp at h
          rw [h] at hn
          exact navigate_not_exit env visited url hn
  | download url destination =>
      exfalso
      simp only [Worker.process_message] at h
      cases hd : (Worker.download env visited url destination).1 with
      | error e => rw [hd] at h; simp at h
      | ok out =>
          rw [hd] at h
          simp at h
          rw [h] at hd
          exact download_not_exit env visited url destination hd
  | exit => rfl

theorem worker_no_exit_output (env : FetchEnv) (txClosed : Bool) :
    ∀ (evs : List (Option WorkInput)) (visited : Finset String),
      WorkOutput.exit ∉ (Worker.start env txClosed visited evs).2.1 := by
  intro evs
  induction evs with
  | nil => intro visited; simp [Worker.start]
  | cons ev rest ih =>
      intro visited
      cases ev with
      | none => simpa [Worker.start] using ih visited
      | some input =>
          simp only [Worker.start]
          cases hp : (Worker.process_message env visited input).1 with
          | error e => simp
          | ok out =>
              by_cases hx : out = WorkOutput.exit
              · simp [hx]
              · cases txClosed with
                | true => simp [hx]
                | false =>
                    simp only [hx, if_false, Bool.false_eq_true]
                    intro hmem
                    rcases List.mem_cons.mp hmem with hc | hc
                    · exact hx hc.symm
                    · exact ih _ hc

/-- C6: `process_message` always returns `Ok` — for a `Navigate` or
`Download` whose processing failed it maps the internal error to the
`Error` output carrying the original url — and in the worker loop such a
failure is sent through the normal result-queue path while the loop goes
on, never ending it with an error. -/
theorem process_message_total :
    ∀ (env : FetchEnv) (visited : Finset String) (input : WorkInput),
      (Worker.process_message env visited input).1.isOk = true ∧
      (∀ (url : String) (e : CrablerError), input = WorkInput.navigate url →
        (Worker.navigate env visited url).1 = Except.error e →
        (Worker.process_message env visited input).1 =
          Except.ok (WorkOutput.error url e)) ∧
      (∀ (url destination : String) (e : CrablerError),
        input = WorkInput.download url destination →
        (Worker.download env visited url destination).1 = Except.error e →
        (Worker.process_message env visited input).1 =
          Except.ok (WorkOutput.error url e)) ∧
      (∀ (url : String) (e : CrablerError) (rest : List (Option WorkInput)),
        url ∉ visited → env.fetchPage url = Except.error e →
        Worker.start env false visited (some (WorkInput.navigate url) :: rest) =
          ((Worker.start env false (insert url visited) rest).1,
           WorkOutput.error url e ::
             (Worker.start env false (insert url visited) rest).2.1,
           (Worker.start env false (insert url visited) rest).2.2)) := by
  intro env visited input
  refine ⟨?_, ?_, ?_, ?_⟩
  · cases input with
    | navigate url =>
        simp only [Worker.process_message]
        cases hn : (Worker.navigate env visited url).1 <;> rfl
    | download url destination =>
        simp only [Worker.process_message]
        cases hd : (Worker.download env visited url destination).1 <;> rfl
    | exit => rfl
  · intro url e hin herr
    subst hin
    simp only [Worker.process_message]
    rw [herr]
  · intro url destination e hin herr
    subst hin
    simp only [Worker.process_message]
    rw [herr]
  · intro url e rest hmem hfetch
    simp [Worker.start, Worker.process_message, Worker.navigate, hmem, hfetch]

/-- Witness for C6: a failing fetch becomes a `Failed` output carrying
the url, and the worker loop sends it and keeps going. -/
theorem process_message_total_witness :
    (Worker.process_message failEnv ∅ (WorkInput.navigate "w")).1 =
      Except.ok (WorkOutput.error "w" (CrablerError.fetchFailed "boom")) ∧
    Worker.start failEnv false ∅ [some (WorkInput.navigate "w")] =
      (WorkerOutcome.pending,
       [WorkOutput.error "w" (CrablerError.fetchFailed "boom")],
       insert "w" ∅) :=
  ⟨(process_message_total failEnv ∅ (WorkInput.navigate "w")).2.1 "w"
      (CrablerError.fetchFailed "boom") rfl (by simp [Worker.navigate, failEnv]),
   (process_message_total failEnv ∅ (WorkInput.navigate "w")).2.2.2 "w"
      (CrablerError.fetchFailed "boom") [] (by simp) rfl⟩

/-- C7: dequeuing an `Exit` work item makes the worker loop return
`Ok(())` at once, sending no result onward — and no `Exit` output is
ever sent by a worker; under the supervising wrapper a clean
`Exit`-triggered return permanently ends the slot (no restart, later
runs never happen), while an error exit logs one warning and immediately
restarts a fresh worker loop sharing the same oracles, channel handles
and visited set. -/
theorem worker_stop_and_supervision :
    (∀ (env : FetchEnv) (txClosed : Bool) (visited : Finset String)
        (rest : List (Option WorkInput)),
        Worker.start env txClosed visited (some WorkInput.exit :: rest) =
          (WorkerOutcome.ok, [], visited)) ∧
    (∀ (env : FetchEnv) (txClosed : Bool) (visited : Finset String)
        (evs : List (Option WorkInput)),
        WorkOutput.exit ∉ (Worker.start env txClosed visited evs).2.1) ∧
    (∀ (env : FetchEnv) (txClosed : Bool) (visited : Finset String)
        (evs : List (Option WorkInput)) (runs : List (List (Option WorkInput))),
        (Worker.start env txClosed visited evs).1 = WorkerOutcome.ok →
        superviseRuns env txClosed visited (evs :: runs) =
          (0, true, (Worker.start env txClosed visited evs).2.2)) ∧
    (∀ (env : FetchEnv) (txClosed : Bool) (visited : Finset String)
        (evs : List (Option WorkInput)) (runs : List (List (Option WorkInput)))
        (e : CrablerError),
        (Worker.start env txClosed visited evs).1 = WorkerOutcome.err e →
        superviseRuns env txClosed visited (evs :: runs) =
          ((superviseRuns env txClosed
              (Worker.start env txClosed visited evs).2.2 runs).1 + 1,
           (superviseRuns env txClosed
              (Worker.start env txClosed visited evs).2.2 runs).2)) := by
  refine ⟨?_, ?_, ?_, ?_⟩
  · intro env txClosed visited rest
    simp [Worker.start, Worker.process_message]
  · intro env txClosed visited evs
    exact worker_no_exit_output env txClosed evs visited
  · intro env txClosed visited evs runs hok
    simp only [superviseRuns]
    rw [hok]
  · intro env txClosed visited evs runs e herr
    simp only [superviseRuns]
    rw [herr]

/-- Witness for C7: one worker run that dequeues `Exit` first returns
cleanly, sends nothing, and its supervisor ends the slot without a
restart, ignoring any later runs. -/
theorem worker_stop_and_supervision_witness :
    Worker.start okEnv false ∅ [some WorkInput.exit] =
      (WorkerOutcome.ok, [], ∅) ∧
    superviseRuns okEnv false ∅ [[some WorkInput.exit], [none]] =
      (0, true, ∅) :=
  ⟨worker_stop_and_supervision.1 okEnv false ∅ [],
   worker_stop_and_supervision.2.2.1 okEnv false ∅ [some WorkInput.exit]
     [[none]] rfl⟩

theorem worker_ok_has_exit (env : FetchEnv) (txClosed : Bool) :
    ∀ (evs : List (Option WorkInput)) (visited : Finset String),
      (Worker.start env txClosed visited evs).1 = WorkerOutcome.ok →
      some WorkInput.exit ∈ evs := by
  intro evs
  induction evs with
  | nil => intro visited h; simp [Worker.start] at h
  | cons ev rest ih =>
      intro visited h
      cases ev with
      | none =>
          simp only [Worker.start] at h
          exact List.mem_cons_of_mem _ (ih visited h)
      | some input =>
          simp only [Worker.start] at h
          cases hp : (Worker.process_message env visited input).1 with
          | error e => rw [hp] at h; simp at h
          | ok out =>
              rw [hp] at h
              by_cases hx : out = WorkOutput.exit
              · subst hx
                have := process_message_exit_inv env visited input hp
                subst this
                exact List.mem_cons_self _ _
              · simp only [hx, if_false] at h
                cases txClosed with
                | true => simp at h
                | false =>
                    simp only [Bool.false_eq_true, if_false] at h
                    exact List.mem_cons_of_mem _ (ih _ h)

/-- C10: `Worker::start` returns `Ok(())` only after dequeuing an `Exit`
work item; a receive that fails because the queue is closed and empty is
simply retried (the loop `continue`s), so a run seeing only failed
receives is still looping and queue closure alone never ends a worker. -/
theorem worker_retries_until_exit :
    (∀ (env : FetchEnv) (txClosed : Bool) (visited : Finset String)
        (rest : List (Option WorkInput)),
        Worker.start env txClosed visited (none :: rest) =
          Worker.start env txClosed visited rest) ∧
    (∀ (env : FetchEnv) (txClosed : Bool) (visited : Finset String) (n : Nat),
        Worker.start env txClosed visited (List.replicate n none) =
          (WorkerOutcome.pending, [], visited)) ∧
    (∀ (env : FetchEnv) (txClosed : Bool) (visited : Finset String)
        (evs : List (Option WorkInput)),
        (Worker.start env txClosed visited evs).1 = WorkerOutcome.ok →
        some WorkInput.exit ∈ evs) := by
  refine ⟨?_, ?_, ?_⟩
  · intro env txClosed visited rest
    simp [Worker.start]
  · intro env txClosed visited n
    induction n with
    | zero => simp [Worker.start]
    | succ n ihn => simpa [List.replicate_succ, Worker.start] using ihn
  · intro env txClosed visited evs
    exact worker_ok_has_exit env txClosed evs visited

/-- Witness for C10: two failed receives leave the worker still looping,
and a clean return implies an `Exit` was dequeued. -/
theorem worker_retries_until_exit_witness :
    Worker.start okEnv false ∅ [none, none] =
      (WorkerOutcome.pending, [], ∅) ∧
    some WorkInput.exit ∈ [some WorkInput.exit, none] :=
  ⟨by
      have h := worker_retries_until_exit.2.1 okEnv false ∅ 2
      simpa using h,
   worker_retries_until_exit.2.2 okEnv false ∅ [some WorkInput.exit, none] rfl⟩

end Crabler
